import Mathlib

/-!
Shallow embedding of the wagyu extended-private-key engine.

The Rust sources embedded here are:
* `src/bitcoin/src/extended_private_key.rs` — BIP32 extended private keys:
  master-key generation, child derivation (`ckd_priv`), and the base-58
  encode/decode pipeline (`Display::fmt`, `FromStr::from_str`);
* `src/ethereum/src/derivation_path.rs` — derivation-path string parsing.

External collaborators (HMAC-SHA512, the double-hash checksum, hash160,
base-58, and secp256k1 point serialization) are passed as explicit function
parameters, exactly as the specification designates them as external.
Machine bytes are modelled as `Nat` values below 256; `u8`/`u32` overflow is
made explicit with `% 2^w` where the Rust code can overflow.

Rust panics (`expect`/`unwrap`) are modelled as explicit `panicked` results
so that theorems can distinguish a panic from a returned error.
-/

namespace Wagyu

/-- The secp256k1 group order n; `SecretKey::from_slice` accepts exactly the
scalars s with 0 < s < n. -/
def secpOrder : Nat :=
  0xfffffffffffffffffffffffffffffffebaaedce6af48a03bbfd25e8cd0364141

/-- Big-endian interpretation of a byte list as a natural number. -/
def beBytesToNat (l : List Nat) : Nat :=
  l.foldl (fun a b => a * 256 + b) 0

/-- Big-endian serialization of a natural number into `w` bytes
(`ser256` for w = 32, `ser32` for w = 4 in BIP32 terms). -/
def natToBeBytes : Nat → Nat → List Nat
  | 0, _ => []
  | w + 1, v => natToBeBytes w (v / 256) ++ [v % 256]

/-- `ser32(i)`: the 4-byte big-endian serialization used for child numbers. -/
def ser32 (i : Nat) : List Nat := natToBeBytes 4 i

/-- The networks supported by `src/bitcoin/src/network.rs` as used in
`extended_private_key.rs`. -/
inductive Network
  | Mainnet
  | Testnet
deriving DecidableEq

/-- Modelled from the spec: `BitcoinPrivateKey` lives in
`src/bitcoin/src/private_key.rs`, which is not included under `src/`; per the
call sites in `extended_private_key.rs`, `from_secret_key` packages a secret
scalar together with a network tag and a compressed flag. -/
structure BitcoinPrivateKey where
  secret_key : Nat
  network : Network
  compressed : Bool
deriving DecidableEq

/-- Modelled from the spec: `BitcoinPrivateKey::from_secret_key` stores its
three arguments. -/
def BitcoinPrivateKey.from_secret_key (sk : Nat) (nw : Network) (c : Bool) :
    BitcoinPrivateKey :=
  ⟨sk, nw, c⟩

/-- The `BitcoinExtendedPrivateKey` struct (extended_private_key.rs lines
20-38). `chain_code` is 32 bytes, `parent_fingerprint` 4 bytes, `depth` a u8
and `child_number` a u32; those width constraints are collected in
`ValidKey`. -/
structure BitcoinExtendedPrivateKey where
  private_key : BitcoinPrivateKey
  chain_code : List Nat
  network : Network
  depth : Nat
  parent_fingerprint : List Nat
  child_number : Nat
deriving DecidableEq

/-- The representation constraints of the Rust struct field types, plus
scalar validity: a validly constructed key satisfies all of them. -/
abbrev ValidKey (k : BitcoinExtendedPrivateKey) : Prop :=
  k.chain_code.length = 32 ∧ k.parent_fingerprint.length = 4 ∧
  k.depth < 256 ∧ k.child_number < 2 ^ 32 ∧
  0 < k.private_key.secret_key ∧ k.private_key.secret_key < secpOrder

/-- `SecretKey::from_slice`: accepts exactly 32 bytes whose big-endian value
is nonzero and below the group order. -/
def secretKeyFromSlice (bytes : List Nat) : Option Nat :=
  if bytes.length = 32 ∧ 0 < beBytesToNat bytes ∧ beBytesToNat bytes < secpOrder
  then some (beBytesToNat bytes) else none

/-- `derive_private_key_and_chain_code` (lines 109-120): split a 64-byte hash
output; the left half must parse as a secret key (the Rust code panics
otherwise, modelled as `none`), the right half becomes the chain code; the
inner private key is always tagged `Network::Mainnet` with `compressed =
true`. -/
def derive_private_key_and_chain_code (result : List Nat) :
    Option (BitcoinPrivateKey × List Nat) :=
  match secretKeyFromSlice (result.take 32) with
  | none => none
  | some sk =>
    some (BitcoinPrivateKey.from_secret_key sk Network.Mainnet true,
          (result.drop 32).take 32)

/-- The fixed HMAC key `b"Bitcoin seed"` of `generate_master` (line 48). -/
def bitcoinSeedKey : List Nat :=
  [66, 105, 116, 99, 111, 105, 110, 32, 115, 101, 101, 100]

/-- `generate_master` (lines 47-60), parameterized by the external
HMAC-SHA512 collaborator (key, message ↦ 64-byte output). -/
def generate_master (hmac : List Nat → List Nat → List Nat)
    (seed : List Nat) : Option BitcoinExtendedPrivateKey :=
  match derive_private_key_and_chain_code (hmac bitcoinSeedKey seed) with
  | none => none
  | some (pk, cc) =>
    some { private_key := pk, chain_code := cc, network := Network.Mainnet,
           depth := 0, parent_fingerprint := [0, 0, 0, 0], child_number := 0 }

/-- `secp256k1` scalar tweak addition `add_assign`: (a + b) mod n, failing
(Rust `expect`) when the result is the zero scalar. -/
def secpAddAssign (a b : Nat) : Option Nat :=
  if (a + b) % secpOrder = 0 then none else some ((a + b) % secpOrder)

/-- The keyed-hash message assembled by `ckd_priv` (lines 69-82): for a
hardened index (≥ 2^31) one zero byte then the 32-byte parent scalar, else
the serialized compressed parent public key (external collaborator `serP`);
both followed by `ser32(child_number)`. -/
def ckd_message (serP : Nat → List Nat) (parent : BitcoinExtendedPrivateKey)
    (child_number : Nat) : List Nat :=
  (if 2 ^ 31 ≤ child_number
   then 0 :: natToBeBytes 32 parent.private_key.secret_key
   else serP parent.private_key.secret_key) ++ ser32 child_number

/-- `ckd_priv` (lines 63-101), parameterized by the external HMAC-SHA512,
compressed-public-key serialization and hash160 collaborators. The Rust
`self.depth + 1` is u8 arithmetic, so the child depth is
`(depth + 1) % 256`; scalar-parse and `add_assign` panics are modelled as
`none`. -/
def ckd_priv (hmac : List Nat → List Nat → List Nat)
    (serP : Nat → List Nat) (hash160 : List Nat → List Nat)
    (parent : BitcoinExtendedPrivateKey) (child_number : Nat) :
    Option BitcoinExtendedPrivateKey :=
  match derive_private_key_and_chain_code
      (hmac parent.chain_code (ckd_message serP parent child_number)) with
  | none => none
  | some (pk, cc) =>
    match secpAddAssign pk.secret_key parent.private_key.secret_key with
    | none => none
    | some sk =>
      some { private_key := { pk with secret_key := sk },
             chain_code := cc,
             network := parent.network,
             depth := (parent.depth + 1) % 256,
             parent_fingerprint :=
               (hash160 (serP parent.private_key.secret_key)).take 4,
             child_number := child_number }

/-- Version prefixes: the byte literals matched in `from_str` (lines 138-144)
and written by `Display::fmt` (lines 183-186). -/
def versionBytes : Network → List Nat
  | Network.Mainnet => [0x04, 0x88, 0xAD, 0xE4]
  | Network.Testnet => [0x04, 0x35, 0x83, 0x94]

/-- The version-to-network resolution performed by `from_str`
(lines 138-144). -/
def networkFromVersion (v : List Nat) : Option Network :=
  if v = [0x04, 0x88, 0xAD, 0xE4] then some Network.Mainnet
  else if v = [0x04, 0x35, 0x83, 0x94] then some Network.Testnet
  else none

/-- Outcome of decoding: a key, a returned `Err(&str)` with the source's
message, or a Rust panic with the `expect` message. -/
inductive DecodeResult
  | ok (k : BitcoinExtendedPrivateKey)
  | err (msg : String)
  | panicked (msg : String)
deriving DecidableEq

/-- The body of `FromStr::from_str` after base-58 decoding (lines 134-176):
length check, version resolution, field extraction (the secret scalar is read
from bytes 46..78, skipping the marker byte 45), scalar parse (a panic on an
invalid scalar), then checksum comparison. `checksum` is the external
double-hash collaborator. -/
def from_data (checksum : List Nat → List Nat) (data : List Nat) :
    DecodeResult :=
  if data.length ≠ 82 then .err "Invalid extended private key string length"
  else match networkFromVersion (data.take 4) with
  | none => .err "Invalid network version"
  | some network =>
    match secretKeyFromSlice ((data.drop 46).take 32) with
    | none => .panicked "Error decoding secret key string"
    | some sk =>
      if (data.drop 78).take 4 = (checksum (data.take 78)).take 4 then
        .ok { private_key := BitcoinPrivateKey.from_secret_key sk network true,
              chain_code := (data.drop 13).take 32,
              network := network,
              depth := data.getD 4 0,
              parent_fingerprint := (data.drop 5).take 4,
              child_number := beBytesToNat ((data.drop 9).take 4) }
      else .err "Invalid extended private key"

/-- `FromStr::from_str` (lines 132-176): base-58 decode (external
collaborator; its failure is a Rust panic via `expect`), then `from_data`. -/
def from_str (checksum : List Nat → List Nat)
    (fromBase58 : String → Option (List Nat)) (s : String) : DecodeResult :=
  match fromBase58 s with
  | none => .panicked "Error decoding base58 extended private key string"
  | some data => from_data checksum data

/-- The 78-byte serialization body written by `Display::fmt` (lines 182-194):
version, depth, parent fingerprint, big-endian child number, chain code, the
0x00 marker byte, and the 32-byte secret scalar. -/
def encBody (k : BitcoinExtendedPrivateKey) : List Nat :=
  versionBytes k.network ++
    ([k.depth] ++
      (k.parent_fingerprint ++
        (ser32 k.child_number ++
          (k.chain_code ++
            ([0] ++ natToBeBytes 32 k.private_key.secret_key)))))

/-- The full 82-byte encoding of `Display::fmt` (lines 182-198): the body
followed by the first 4 bytes of the external checksum of the body. -/
def toBytes (checksum : List Nat → List Nat)
    (k : BitcoinExtendedPrivateKey) : List Nat :=
  encBody k ++ (checksum (encBody k)).take 4

/-- `Display::fmt` (lines 181-200): base-58-encode the 82 bytes. -/
def display (checksum : List Nat → List Nat)
    (toBase58 : List Nat → String) (k : BitcoinExtendedPrivateKey) : String :=
  toBase58 (toBytes checksum k)

/-- Flip bit `b` of the byte at index `i`. -/
def flipBit (data : List Nat) (i b : Nat) : List Nat :=
  data.set i (Nat.xor (data.getD i 0) (2 ^ b))

/-- Modelled from the spec: the error type of derivation-path parsing lives
in the external model crate (`wagu_model`, not under `src/`); only the
`InvalidDerivationPath` variant is produced directly by
`src/ethereum/src/derivation_path.rs`, the child-index parser may return any
variant. -/
inductive DerivationPathError
  | InvalidDerivationPath (s : String)
  | InvalidChildIndexStr (s : String)
deriving DecidableEq

/-- Outcome of `EthereumDerivationPath::from_str`: a parsed path, an error,
or a Rust panic (the `unwrap` on the first split piece). -/
inductive EthParseOutcome (α : Type)
  | ok (path : List α)
  | err (e : DerivationPathError)
  | panicked
deriving DecidableEq

/-- Rust `str::split` with the separator `"/"`, on the character list of the
input: splitting the empty string yields one empty piece, and every
occurrence of the separator starts a new piece. -/
def splitSlash : List Char → List (List Char)
  | [] => [[]]
  | c :: rest =>
    if c = '/' then [] :: splitSlash rest
    else
      match splitSlash rest with
      | [] => [[c]]
      | p :: ps => (c :: p) :: ps

/-- `EthereumDerivationPath::from_str` (derivation_path.rs lines 15-24):
split on `"/"`, `unwrap` the first piece (`panicked` if the split were
empty), require it to be exactly `"m"`, then parse the remaining pieces with
the external `ChildIndex` parser and collect the results. -/
def eth_from_str {α : Type}
    (parseChild : String → Except DerivationPathError α)
    (path : String) : EthParseOutcome α :=
  match splitSlash path.data with
  | [] => .panicked
  | first :: rest =>
    if String.mk first ≠ "m" then .err (.InvalidDerivationPath path)
    else
      match (rest.map String.mk).mapM parseChild with
      | .ok l => .ok l
      | .error e => .err e

/-! ## Concrete instantiations of the external collaborators, used to
evaluate the embedded code on specific inputs. -/

/-- A concrete stand-in for the external double-hash checksum collaborator. -/
def chkD : List Nat → List Nat := fun _ => [0, 0, 0, 0]

/-- A concrete stand-in for the external HMAC-SHA512 collaborator: its left
half is the valid scalar 1, its right half all zeroes. -/
def hmacD : List Nat → List Nat → List Nat :=
  fun _ _ => (List.replicate 31 0 ++ [1]) ++ List.replicate 32 0

/-- A concrete stand-in for compressed-public-key serialization. -/
def serPD : Nat → List Nat := fun _ => List.replicate 33 2

/-- A concrete stand-in for the external hash160 collaborator. -/
def h160D : List Nat → List Nat := fun _ => List.replicate 20 7

/-- A concrete stand-in for the external `ChildIndex` string parser. -/
def pcD : String → Except DerivationPathError Nat :=
  fun s => Except.error (DerivationPathError.InvalidChildIndexStr s)

/-- A concrete valid mainnet extended private key (scalar 1, zero chain
code, depth 0). -/
def keyD : BitcoinExtendedPrivateKey :=
  { private_key := ⟨1, Network.Mainnet, true⟩,
    chain_code := List.replicate 32 0, network := Network.Mainnet,
    depth := 0, parent_fingerprint := [0, 0, 0, 0], child_number := 0 }

/-- The 82-byte encoding of `keyD` under the `chkD` checksum. -/
def bytesD : List Nat := toBytes chkD keyD

/-- A concrete valid parent key already at the maximum depth 255. -/
def parent255 : BitcoinExtendedPrivateKey :=
  { private_key := ⟨1, Network.Mainnet, true⟩,
    chain_code := List.replicate 32 0, network := Network.Mainnet,
    depth := 255, parent_fingerprint := [0, 0, 0, 0], child_number := 0 }

/-- A concrete valid testnet parent key. -/
def parentT : BitcoinExtendedPrivateKey :=
  { private_key := ⟨1, Network.Mainnet, true⟩,
    chain_code := List.replicate 32 0, network := Network.Testnet,
    depth := 0, parent_fingerprint := [0, 0, 0, 0], child_number := 0 }

/-- The child `ckd_priv hmacD serPD h160D parentT 0` evaluates to. -/
def childT : BitcoinExtendedPrivateKey :=
  { private_key := ⟨2, Network.Mainnet, true⟩,
    chain_code := List.replicate 32 0, network := Network.Testnet,
    depth := 1, parent_fingerprint := [7, 7, 7, 7], child_number := 0 }

/-- An 82-byte payload with a valid mainnet version prefix but an all-zero
(hence invalid) scalar field. -/
def dataZeroScalar : List Nat :=
  versionBytes Network.Mainnet ++ List.replicate 78 0

/-- An 82-byte payload with a valid version, an all-zero (invalid) scalar
field, and a trailing checksum that does not match `chkD`. -/
def dataBadCks : List Nat :=
  versionBytes Network.Mainnet ++ (List.replicate 74 0 ++ [9, 9, 9, 9])

/-- An 82-byte payload with a valid version, scalar 1, and a checksum that
matches `chkD`. -/
def dataC5good : List Nat :=
  versionBytes Network.Mainnet ++
    (List.replicate 42 0 ++ ((List.replicate 31 0 ++ [1]) ++ [0, 0, 0, 0]))

/-- Like `dataC5good` but with a checksum that does not match `chkD`. -/
def dataC5badck : List Nat :=
  versionBytes Network.Mainnet ++
    (List.replicate 42 0 ++ ((List.replicate 31 0 ++ [1]) ++ [9, 9, 9, 9]))

/-- An 82-byte payload whose marker byte (offset 45) is 1 rather than 0,
with valid version, valid scalar 1, and a checksum matching `chkD`. -/
def data7 : List Nat :=
  versionBytes Network.Mainnet ++
    ([0] ++ ([0, 0, 0, 0] ++ ([0, 0, 0, 0] ++ (List.replicate 32 0 ++
      ([1] ++ ((List.replicate 31 0 ++ [1]) ++ [0, 0, 0, 0]))))))

/-! ## Helper lemmas about byte-list manipulation -/

theorem take_pref (a rest : List Nat) (n : Nat) (h : a.length = n) :
    (a ++ rest).take n = a := by
  subst h; exact List.take_left a rest

theorem drop_pref (a rest : List Nat) (n : Nat) (h : a.length = n) :
    (a ++ rest).drop n = rest := by
  subst h; exact List.drop_left a rest

theorem getD_pref : ∀ (a : List Nat) (n : Nat), a.length = n →
    ∀ (x : Nat) (rest : List Nat), (a ++ x :: rest).getD n 0 = x := by
  intro a
  induction a with
  | nil => intro n h x rest; subst h; rfl
  | cons y a ih =>
    intro n h x rest
    subst h
    simpa [List.getD] using ih a.length rfl x rest

theorem length_natToBeBytes (w v : Nat) : (natToBeBytes w v).length = w := by
  induction w generalizing v with
  | zero => rfl
  | succ w ih => simp [natToBeBytes, ih]

theorem beBytesToNat_append_singleton (xs : List Nat) (b : Nat) :
    beBytesToNat (xs ++ [b]) = beBytesToNat xs * 256 + b := by
  simp [beBytesToNat, List.foldl_append]

theorem beBytesToNat_natToBeBytes (w v : Nat) (h : v < 256 ^ w) :
    beBytesToNat (natToBeBytes w v) = v := by
  induction w generalizing v with
  | zero =>
    have : v = 0 := by omega
    subst this; rfl
  | succ w ih =>
    have hdiv : v / 256 < 256 ^ w := by
      have h2 : v < 256 ^ w * 256 := by
        calc v < 256 ^ (w + 1) := h
        _ = 256 ^ w * 256 := by ring
      omega
    rw [natToBeBytes, beBytesToNat_append_singleton, ih (v / 256) hdiv]
    omega

theorem xor_pow2_ne_self (x b : Nat) : Nat.xor x (2 ^ b) ≠ x := by
  intro h
  have hpos : 0 < 2 ^ b := Nat.pos_pow_of_pos b (by decide)
  have h2 : x ^^^ (x ^^^ 2 ^ b) = x ^^^ x := by
    show x ^^^ Nat.xor x (2 ^ b) = x ^^^ x
    rw [h]
  rw [← Nat.xor_assoc, Nat.xor_self, Nat.zero_xor] at h2
  omega

theorem splitSlash_ne_nil (l : List Char) : splitSlash l ≠ [] := by
  induction l with
  | nil => simp [splitSlash]
  | cons c rest ih =>
    rw [splitSlash]
    by_cases h : c = '/'
    · simp [h]
    · simp only [if_neg h]
      cases hs : splitSlash rest with
      | nil => simp
      | cons p ps => simp

theorem from_data_layout (chk : List Nat → List Nat)
    (v4 fp c4 cc skb ck4 : List Nat) (d m : Nat)
    (hv : v4.length = 4) (hfp : fp.length = 4) (hc4 : c4.length = 4)
    (hcc : cc.length = 32) (hsk : skb.length = 32) (hck : ck4.length = 4) :
    from_data chk
        (v4 ++ ([d] ++ (fp ++ (c4 ++ (cc ++ ([m] ++ (skb ++ ck4))))))) =
      match networkFromVersion v4 with
      | none => .err "Invalid network version"
      | some network =>
        match secretKeyFromSlice skb with
        | none => .panicked "Error decoding secret key string"
        | some sk =>
          if ck4 =
              (chk (v4 ++ ([d] ++ (fp ++ (c4 ++ (cc ++ ([m] ++ skb))))))).take 4
          then
            .ok { private_key := BitcoinPrivateKey.from_secret_key sk network true,
                  chain_code := cc, network := network, depth := d,
                  parent_fingerprint := fp, child_number := beBytesToNat c4 }
          else .err "Invalid extended private key"
    := by
  have hlen :
      (v4 ++ ([d] ++ (fp ++ (c4 ++ (cc ++ ([m] ++ (skb ++ ck4))))))).length
        = 82 := by
    simp [hv, hfp, hc4, hcc, hsk, hck]
  have h_take4 :
      (v4 ++ ([d] ++ (fp ++ (c4 ++ (cc ++ ([m] ++ (skb ++ ck4))))))).take 4
        = v4 :=
    take_pref v4 _ 4 hv
  have h_getD :
      (v4 ++ ([d] ++ (fp ++ (c4 ++ (cc ++ ([m] ++ (skb ++ ck4))))))).getD 4 0
        = d := by
    have h := getD_pref v4 4 hv d (fp ++ (c4 ++ (cc ++ ([m] ++ (skb ++ ck4)))))
    simpa using h
  have h_drop5 :
      ((v4 ++ ([d] ++ (fp ++ (c4 ++ (cc ++ ([m] ++ (skb ++ ck4))))))).drop 5).take 4
        = fp := by
    have e : v4 ++ ([d] ++ (fp ++ (c4 ++ (cc ++ ([m] ++ (skb ++ ck4))))))
        = (v4 ++ [d]) ++ (fp ++ (c4 ++ (cc ++ ([m] ++ (skb ++ ck4))))) := by
      simp [List.append_assoc]
    rw [e, drop_pref _ _ 5 (by simp [hv]), take_pref fp _ 4 hfp]
  have h_drop9 :
      ((v4 ++ ([d] ++ (fp ++ (c4 ++ (cc ++ ([m] ++ (skb ++ ck4))))))).drop 9).take 4
        = c4 := by
    have e : v4 ++ ([d] ++ (fp ++ (c4 ++ (cc ++ ([m] ++ (skb ++ ck4))))))
        = ((v4 ++ [d]) ++ fp) ++ (c4 ++ (cc ++ ([m] ++ (skb ++ ck4)))) := by
      simp [List.append_assoc]
    rw [e, drop_pref _ _ 9 (by simp [hv, hfp]), take_pref c4 _ 4 hc4]
  have h_drop13 :
      ((v4 ++ ([d] ++ (fp ++ (c4 ++ (cc ++ ([m] ++ (skb ++ ck4))))))).drop 13).take 32
        = cc := by
    have e : v4 ++ ([d] ++ (fp ++ (c4 ++ (cc ++ ([m] ++ (skb ++ ck4))))))
        = (((v4 ++ [d]) ++ fp) ++ c4) ++ (cc ++ ([m] ++ (skb ++ ck4))) := by
      simp [List.append_assoc]
    rw [e, drop_pref _ _ 13 (by simp [hv, hfp, hc4]), take_pref cc _ 32 hcc]
  have h_drop46 :
      ((v4 ++ ([d] ++ (fp ++ (c4 ++ (cc ++ ([m] ++ (skb ++ ck4))))))).drop 46).take 32
        = skb := by
    have e : v4 ++ ([d] ++ (fp ++ (c4 ++ (cc ++ ([m] ++ (skb ++ ck4))))))
        = (((((v4 ++ [d]) ++ fp) ++ c4) ++ cc) ++ [m]) ++ (skb ++ ck4) := by
      simp [List.append_assoc]
    rw [e, drop_pref _ _ 46 (by simp [hv, hfp, hc4, hcc]),
        take_pref skb _ 32 hsk]
  have h_drop78 :
      ((v4 ++ ([d] ++ (fp ++ (c4 ++ (cc ++ ([m] ++ (skb ++ ck4))))))).drop 78).take 4
        = ck4 := by
    have e : v4 ++ ([d] ++ (fp ++ (c4 ++ (cc ++ ([m] ++ (skb ++ ck4))))))
        = ((((((v4 ++ [d]) ++ fp) ++ c4) ++ cc) ++ [m]) ++ skb) ++ ck4 := by
      simp [List.append_assoc]
    rw [e, drop_pref _ _ 78 (by simp [hv, hfp, hc4, hcc, hsk]), ← hck,
        List.take_length]
  have h_take78 :
      (v4 ++ ([d] ++ (fp ++ (c4 ++ (cc ++ ([m] ++ (skb ++ ck4))))))).take 78
        = v4 ++ ([d] ++ (fp ++ (c4 ++ (cc ++ ([m] ++ skb))))) := by
    have e : v4 ++ ([d] ++ (fp ++ (c4 ++ (cc ++ ([m] ++ (skb ++ ck4))))))
        = (((((((v4 ++ [d]) ++ fp) ++ c4) ++ cc) ++ [m]) ++ skb)) ++ ck4 := by
      simp [List.append_assoc]
    rw [e, take_pref _ _ 78 (by simp [hv, hfp, hc4, hcc, hsk])]
    simp [List.append_assoc]
  simp only [from_data]
  rw [if_neg (fun hne => hne hlen), h_take4, h_getD, h_drop5, h_drop9,
      h_drop13, h_drop46, h_drop78, h_take78]

theorem set_suffix : ∀ (a l : List Nat) (n x : Nat),
    (a ++ l).set (a.length + n) x = a ++ l.set n x := by
  intro a
  induction a with
  | nil => intro l n x; simp
  | cons y a ih =>
    intro l n x
    have e : (y :: a).length + n = (a.length + n) + 1 := by
      simp [Nat.add_right_comm]
    rw [e]
    show y :: ((a ++ l).set (a.length + n) x) = y :: (a ++ l.set n x)
    rw [ih]

theorem getD_suffix : ∀ (a l : List Nat) (n : Nat),
    (a ++ l).getD (a.length + n) 0 = l.getD n 0 := by
  intro a
  induction a with
  | nil => intro l n; simp
  | cons y a ih =>
    intro l n
    have e : (y :: a).length + n = (a.length + n) + 1 := by
      simp [Nat.add_right_comm]
    rw [e]
    show (a ++ l).getD (a.length + n) 0 = l.getD n 0
    exact ih l n

theorem getD_set_self (l : List Nat) (i v : Nat) (h : i < l.length) :
    (l.set i v).getD i 0 = v := by
  simp [List.getD_eq_getElem?_getD, List.getElem?_set_self, h]

theorem networkFromVersion_versionBytes (nw : Network) :
    networkFromVersion (versionBytes nw) = some nw := by
  cases nw <;> rfl

theorem length_versionBytes (nw : Network) : (versionBytes nw).length = 4 := by
  cases nw <;> rfl

theorem secpOrder_lt : secpOrder < 256 ^ 32 := by decide

theorem secretKeyFromSlice_natToBeBytes (s : Nat) (h0 : 0 < s)
    (h1 : s < secpOrder) : secretKeyFromSlice (natToBeBytes 32 s) = some s := by
  have hs : s < 256 ^ 32 := lt_trans h1 secpOrder_lt
  simp [secretKeyFromSlice, length_natToBeBytes,
        beBytesToNat_natToBeBytes 32 s hs, h0, h1]

theorem length_encBody (k : BitcoinExtendedPrivateKey)
    (hcc : k.chain_code.length = 32) (hfp : k.parent_fingerprint.length = 4) :
    (encBody k).length = 78 := by
  simp [encBody, ser32, length_versionBytes, length_natToBeBytes, hcc, hfp]

theorem toBytes_eq_layout (chk : List Nat → List Nat)
    (k : BitcoinExtendedPrivateKey) :
    toBytes chk k =
      versionBytes k.network ++
        ([k.depth] ++
          (k.parent_fingerprint ++
            (ser32 k.child_number ++
              (k.chain_code ++
                ([0] ++
                  (natToBeBytes 32 k.private_key.secret_key ++
                    (chk (encBody k)).take 4)))))) := by
  simp [toBytes, encBody, List.append_assoc]

/-! ## Claim theorems -/

/-- C1: decoding the base-58 text produced by encoding a validly constructed
extended private key yields a key equal to it field-for-field (network,
depth, parent_fingerprint, child_number, chain_code, private scalar). The
base-58 codec and checksum are external collaborators; the hypotheses record
that base-58 round-trips on this encoding and that the checksum emits at
least the 4 bytes the code slices off. -/
theorem c1_encode_decode_roundtrip (chk : List Nat → List Nat)
    (toB58 : List Nat → String) (fromB58 : String → Option (List Nat))
    (k : BitcoinExtendedPrivateKey) (hk : ValidKey k)
    (hchk : 4 ≤ (chk (encBody k)).length)
    (h58 : fromB58 (toB58 (toBytes chk k)) = some (toBytes chk k)) :
    from_str chk fromB58 (display chk toB58 k) =
      DecodeResult.ok
        { private_key :=
            BitcoinPrivateKey.from_secret_key k.private_key.secret_key
              k.network true,
          chain_code := k.chain_code, network := k.network,
          depth := k.depth, parent_fingerprint := k.parent_fingerprint,
          child_number := k.child_number } := by
  obtain ⟨hcc, hfp, hd, hcn, hs0, hs1⟩ := hk
  have hck : ((chk (encBody k)).take 4).length = 4 := by
    simp only [List.length_take]
    omega
  simp only [from_str, display, h58]
  rw [toBytes_eq_layout,
      from_data_layout chk (versionBytes k.network) k.parent_fingerprint
        (ser32 k.child_number) k.chain_code
        (natToBeBytes 32 k.private_key.secret_key)
        ((chk (encBody k)).take 4) k.depth 0 (length_versionBytes _) hfp
        (length_natToBeBytes 4 _) hcc (length_natToBeBytes 32 _) hck]
  simp only [networkFromVersion_versionBytes,
             secretKeyFromSlice_natToBeBytes _ hs0 hs1]
  have harg : versionBytes k.network ++
      ([k.depth] ++ (k.parent_fingerprint ++ (ser32 k.child_number ++
        (k.chain_code ++ ([0] ++ natToBeBytes 32 k.private_key.secret_key)))))
      = encBody k := rfl
  rw [harg, if_pos rfl]
  have hc4 : beBytesToNat (ser32 k.child_number) = k.child_number := by
    have e : (256 : Nat) ^ 4 = 2 ^ 32 := by norm_num
    have h := beBytesToNat_natToBeBytes 4 k.child_number (by omega)
    simpa [ser32] using h
  rw [hc4]

/-- C1 witness: the round trip evaluated at the concrete key `keyD` with
concrete collaborator instantiations. -/
theorem c1_encode_decode_roundtrip_witness :
    from_str chkD (fun _ => some bytesD) (display chkD (fun _ => "x") keyD) =
      DecodeResult.ok keyD :=
  c1_encode_decode_roundtrip chkD (fun _ => "x") (fun _ => some bytesD) keyD
    (by decide) (by decide) rfl

/-- C2: child derivation selects the hardened branch exactly when the index
is at least 2^31; the hardened keyed-hash message is one zero byte, the
32-byte parent scalar, then the 4-byte big-endian index, and the
non-hardened message is the serialized compressed parent public key followed
by the 4-byte big-endian index. -/
theorem c2_ckd_branch (serP : Nat → List Nat)
    (parent : BitcoinExtendedPrivateKey) (i : Nat) :
    (2 ^ 31 ≤ i →
      ckd_message serP parent i =
        0 :: (natToBeBytes 32 parent.private_key.secret_key ++ ser32 i))
    ∧ (i < 2 ^ 31 →
      ckd_message serP parent i =
        serP parent.private_key.secret_key ++ ser32 i) := by
  constructor
  · intro h
    rw [ckd_message, if_pos h]
    simp
  · intro h
    rw [ckd_message, if_neg (by omega)]

/-- C2 witness: the two branches evaluated at the boundary indices 2^31 and
2^31 - 1. -/
theorem c2_ckd_branch_witness :
    ckd_message serPD keyD (2 ^ 31) =
      0 :: (natToBeBytes 32 1 ++ ser32 (2 ^ 31))
    ∧ ckd_message serPD keyD (2 ^ 31 - 1) =
      serPD 1 ++ ser32 (2 ^ 31 - 1) :=
  ⟨(c2_ckd_branch serPD keyD (2 ^ 31)).1 (by decide),
   (c2_ckd_branch serPD keyD (2 ^ 31 - 1)).2 (by decide)⟩

/-- C8: a master key generated from any seed has depth 0, an all-zero
parent fingerprint, and child number 0. -/
theorem c8_generate_master_root (hmac : List Nat → List Nat → List Nat)
    (seed : List Nat) (k : BitcoinExtendedPrivateKey)
    (h : generate_master hmac seed = some k) :
    k.depth = 0 ∧ k.parent_fingerprint = [0, 0, 0, 0] ∧ k.child_number = 0 := by
  simp only [generate_master] at h
  split at h
  · exact absurd h (by simp)
  · obtain rfl := Option.some.inj h
    exact ⟨rfl, rfl, rfl⟩

/-- C8 witness: master generation evaluated with the concrete HMAC stand-in
and the empty seed. -/
theorem c8_generate_master_root_witness :
    keyD.depth = 0 ∧ keyD.parent_fingerprint = [0, 0, 0, 0] ∧
    keyD.child_number = 0 :=
  c8_generate_master_root hmacD [] keyD (by decide)

/-- C3: `ckd_priv` performs `self.depth + 1` on a `u8` with no overflow
check; evaluated at a concrete valid parent of depth 255 (with concrete
collaborator stand-ins), derivation succeeds and the child's depth wraps
around to 0 instead of failing with a depth-overflow error. -/
theorem c3_depth_wraps_at_255 :
    parent255.depth = 255 ∧
    (ckd_priv hmacD serPD h160D parent255 0).map
        BitcoinExtendedPrivateKey.depth = some 0 := by
  exact ⟨rfl, by decide⟩

/-- C4: `from_str` panics (models of the Rust `expect` calls) instead of
returning errors: a failed base-58 decode panics, and an 82-byte payload
whose scalar field is zero panics, both before any error value is
returned. -/
theorem c4_from_str_panics :
    from_str chkD (fun _ => none) "0" =
      DecodeResult.panicked "Error decoding base58 extended private key string"
    ∧ from_data chkD dataZeroScalar =
      DecodeResult.panicked "Error decoding secret key string" := by
  exact ⟨rfl, by decide⟩

/-- C5 (amended): after base-58 decoding, `from_data` fails with the
invalid-length error unless the payload is exactly 82 bytes; fails with the
unknown-network error unless the version resolves; and, provided the scalar
field parses as a valid scalar, fails with the checksum-mismatch error
exactly when the recomputed checksum differs from the trailing 4 bytes; on
success the fields are exactly those extracted per the 82-byte layout. -/
theorem c5_from_data_cases (chk : List Nat → List Nat) (data : List Nat) :
    (data.length ≠ 82 →
      from_data chk data = .err "Invalid extended private key string length")
    ∧ (data.length = 82 → networkFromVersion (data.take 4) = none →
      from_data chk data = .err "Invalid network version")
    ∧ (∀ nw sk, data.length = 82 →
        networkFromVersion (data.take 4) = some nw →
        secretKeyFromSlice ((data.drop 46).take 32) = some sk →
        (data.drop 78).take 4 ≠ (chk (data.take 78)).take 4 →
        from_data chk data = .err "Invalid extended private key")
    ∧ (∀ nw sk, data.length = 82 →
        networkFromVersion (data.take 4) = some nw →
        secretKeyFromSlice ((data.drop 46).take 32) = some sk →
        (data.drop 78).take 4 = (chk (data.take 78)).take 4 →
        from_data chk data =
          .ok { private_key := BitcoinPrivateKey.from_secret_key sk nw true,
                chain_code := (data.drop 13).take 32, network := nw,
                depth := data.getD 4 0,
                parent_fingerprint := (data.drop 5).take 4,
                child_number := beBytesToNat ((data.drop 9).take 4) }) := by
  refine ⟨?_, ?_, ?_, ?_⟩
  · intro h
    simp [from_data, h]
  · intro h hv
    simp [from_data, h, hv]
  · intro nw sk h hv hs hcks
    simp [from_data, h, hv, hs, hcks]
  · intro nw sk h hv hs hcks
    simp [from_data, h, hv, hs, hcks]

/-- C5 counterexample: an 82-byte payload with a valid version, an invalid
(zero) scalar field and a mismatched checksum makes decode panic on the
scalar, not fail with the checksum-mismatch error the claim requires. -/
theorem c5_scalar_preempts_checksum :
    (dataBadCks.drop 78).take 4 ≠ (chkD (dataBadCks.take 78)).take 4
    ∧ from_data chkD dataBadCks ≠ DecodeResult.err "Invalid extended private key"
    ∧ from_data chkD dataBadCks =
        DecodeResult.panicked "Error decoding secret key string" := by
  decide

/-- C5 witness: the four amended clauses evaluated at concrete payloads. -/
theorem c5_from_data_cases_witness :
    from_data chkD [] =
      DecodeResult.err "Invalid extended private key string length"
    ∧ from_data chkD (List.replicate 82 0) =
      DecodeResult.err "Invalid network version"
    ∧ from_data chkD dataC5badck =
      DecodeResult.err "Invalid extended private key"
    ∧ from_data chkD dataC5good = DecodeResult.ok keyD :=
  ⟨(c5_from_data_cases chkD []).1 (by decide),
   (c5_from_data_cases chkD (List.replicate 82 0)).2.1 (by decide) (by decide),
   (c5_from_data_cases chkD dataC5badck).2.2.1 Network.Mainnet 1 (by decide)
     (by decide) (by decide) (by decide),
   (c5_from_data_cases chkD dataC5good).2.2.2 Network.Mainnet 1 (by decide)
     (by decide) (by decide) (by decide)⟩

/-- C6 (amended): flipping any single bit of the trailing 4 checksum bytes
of a previously valid encoded form causes decode to fail with the
checksum-mismatch error; a flip inside the 4-byte version prefix instead
fails earlier with the unknown-network error (see the counterexample). -/
theorem c6_checksum_bitflip (chk : List Nat → List Nat)
    (k : BitcoinExtendedPrivateKey) (hk : ValidKey k)
    (hchk : 4 ≤ (chk (encBody k)).length) (j b : Nat) (hj : j < 4)
    (hb : b < 8) :
    from_data chk (flipBit (toBytes chk k) (78 + j) b) =
      DecodeResult.err "Invalid extended private key" := by
  obtain ⟨hcc, hfp, hd, hcn, hs0, hs1⟩ := hk
  have hck : ((chk (encBody k)).take 4).length = 4 := by
    simp only [List.length_take]
    omega
  have hbody : (encBody k).length = 78 := length_encBody k hcc hfp
  have e1 : flipBit (toBytes chk k) (78 + j) b =
      encBody k ++ ((chk (encBody k)).take 4).set j
        (Nat.xor (((chk (encBody k)).take 4).getD j 0) (2 ^ b)) := by
    rw [flipBit, toBytes]
    rw [show (78 : Nat) + j = (encBody k).length + j from by rw [hbody]]
    rw [getD_suffix, set_suffix]
  have hckset : (((chk (encBody k)).take 4).set j
      (Nat.xor (((chk (encBody k)).take 4).getD j 0) (2 ^ b))).length = 4 := by
    simp [hck]
  have e2 : encBody k ++ ((chk (encBody k)).take 4).set j
        (Nat.xor (((chk (encBody k)).take 4).getD j 0) (2 ^ b)) =
      versionBytes k.network ++
        ([k.depth] ++ (k.parent_fingerprint ++ (ser32 k.child_number ++
          (k.chain_code ++ ([0] ++
            (natToBeBytes 32 k.private_key.secret_key ++
              ((chk (encBody k)).take 4).set j
                (Nat.xor (((chk (encBody k)).take 4).getD j 0)
                  (2 ^ b)))))))) := by
    simp [encBody, List.append_assoc]
  rw [e1, e2,
      from_data_layout chk (versionBytes k.network) k.parent_fingerprint
        (ser32 k.child_number) k.chain_code
        (natToBeBytes 32 k.private_key.secret_key)
        (((chk (encBody k)).take 4).set j
          (Nat.xor (((chk (encBody k)).take 4).getD j 0) (2 ^ b)))
        k.depth 0 (length_versionBytes _) hfp (length_natToBeBytes 4 _) hcc
        (length_natToBeBytes 32 _) hckset]
  simp only [networkFromVersion_versionBytes,
             secretKeyFromSlice_natToBeBytes _ hs0 hs1]
  have harg : versionBytes k.network ++
      ([k.depth] ++ (k.parent_fingerprint ++ (ser32 k.child_number ++
        (k.chain_code ++ ([0] ++ natToBeBytes 32 k.private_key.secret_key)))))
      = encBody k := rfl
  have hne : ((chk (encBody k)).take 4).set j
      (Nat.xor (((chk (encBody k)).take 4).getD j 0) (2 ^ b)) ≠
      (chk (encBody k)).take 4 := by
    intro heq
    have hgd := getD_set_self ((chk (encBody k)).take 4) j
      (Nat.xor (((chk (encBody k)).take 4).getD j 0) (2 ^ b))
      (by rw [hck]; exact hj)
    rw [heq] at hgd
    exact xor_pow2_ne_self (((chk (encBody k)).take 4).getD j 0) b hgd.symm
  rw [harg, if_neg hne]

/-- C6 witness: a flip of bit 0 of the first checksum byte of the encoding
of `keyD` makes decoding fail with the checksum-mismatch error. -/
theorem c6_checksum_bitflip_witness :
    from_data chkD (flipBit (toBytes chkD keyD) (78 + 0) 0) =
      DecodeResult.err "Invalid extended private key" :=
  c6_checksum_bitflip chkD keyD (by decide) (by decide) 0 0 (by decide)
    (by decide)

/-- C6 counterexample: the encoding of the valid key `keyD` decodes
successfully, but flipping bit 7 of byte 0 (inside the version prefix) makes
decoding fail with the unknown-network error, not the checksum-mismatch
error the claim requires for every single-bit flip. -/
theorem c6_version_bitflip_counterexample :
    from_data chkD (toBytes chkD keyD) = DecodeResult.ok keyD
    ∧ from_data chkD (flipBit (toBytes chkD keyD) 0 7) =
        DecodeResult.err "Invalid network version" := by
  decide

/-- C7 (amended): decode does not examine the marker byte at offset 45: for
every marker value m, a payload with valid length, version, scalar and
checksum is accepted, with the fields extracted per the layout. -/
theorem c7_marker_byte_ignored (chk : List Nat → List Nat)
    (v4 fp c4 cc skb ck4 : List Nat) (d m : Nat) (nw : Network) (sk : Nat)
    (hv : v4.length = 4) (hfp : fp.length = 4) (hc4 : c4.length = 4)
    (hcc : cc.length = 32) (hsk : skb.length = 32) (hck : ck4.length = 4)
    (hnw : networkFromVersion v4 = some nw)
    (hsks : secretKeyFromSlice skb = some sk)
    (hcks : ck4 =
      (chk (v4 ++ ([d] ++ (fp ++ (c4 ++ (cc ++ ([m] ++ skb))))))).take 4) :
    from_data chk
        (v4 ++ ([d] ++ (fp ++ (c4 ++ (cc ++ ([m] ++ (skb ++ ck4))))))) =
      DecodeResult.ok
        { private_key := BitcoinPrivateKey.from_secret_key sk nw true,
          chain_code := cc, network := nw, depth := d,
          parent_fingerprint := fp, child_number := beBytesToNat c4 } := by
  rw [from_data_layout chk v4 fp c4 cc skb ck4 d m hv hfp hc4 hcc hsk hck]
  simp only [hnw, hsks]
  rw [if_pos hcks]

/-- C7 witness: the amended statement applied to the concrete payload
`data7`, whose marker byte is 1. -/
theorem c7_marker_byte_ignored_witness :
    from_data chkD data7 = DecodeResult.ok keyD :=
  c7_marker_byte_ignored chkD (versionBytes Network.Mainnet) [0, 0, 0, 0]
    [0, 0, 0, 0] (List.replicate 32 0) (List.replicate 31 0 ++ [1])
    [0, 0, 0, 0] 0 1 Network.Mainnet 1 (by decide) (by decide) (by decide)
    (by decide) (by decide) (by decide) (by decide) (by decide) (by decide)

/-- C7 counterexample: the concrete 82-byte payload `data7` has marker byte
1 at offset 45 yet decoding accepts it, refuting the claim that such a
payload is rejected. -/
theorem c7_marker_byte_accepted_counterexample :
    data7.length = 82 ∧ data7.getD 45 0 = 1 ∧
    from_data chkD data7 = DecodeResult.ok keyD := by
  decide

/-- C9: every key built by master generation or child derivation has its
inner private key constructed with network Mainnet and compressed true,
regardless of the extended key's own network field (a child's network field
propagates the parent's network, whatever it is); only decoding builds the
inner private key with the decoded network. -/
theorem c9_inner_key_network :
    (∀ (hmac : List Nat → List Nat → List Nat) (seed : List Nat)
        (k : BitcoinExtendedPrivateKey), generate_master hmac seed = some k →
        k.private_key.network = Network.Mainnet ∧
        k.private_key.compressed = true)
    ∧ (∀ (hmac : List Nat → List Nat → List Nat) (serP : Nat → List Nat)
        (h160 : List Nat → List Nat) (p : BitcoinExtendedPrivateKey)
        (i : Nat) (c : BitcoinExtendedPrivateKey),
        ckd_priv hmac serP h160 p i = some c →
        c.network = p.network ∧
        c.private_key.network = Network.Mainnet ∧
        c.private_key.compressed = true)
    ∧ (∀ (chk : List Nat → List Nat) (data : List Nat)
        (k : BitcoinExtendedPrivateKey), from_data chk data = .ok k →
        k.private_key.network = k.network ∧
        k.private_key.compressed = true) := by
  refine ⟨?_, ?_, ?_⟩
  · intro hmac seed k h
    simp only [generate_master] at h
    split at h
    · exact absurd h (by simp)
    · rename_i pk cc heq
      obtain rfl := Option.some.inj h
      simp only [derive_private_key_and_chain_code] at heq
      split at heq
      · exact absurd heq (by simp)
      · rename_i sk hsk
        obtain ⟨hpk, hcc2⟩ := Prod.mk.inj (Option.some.inj heq)
        exact ⟨by rw [← hpk]; rfl, by rw [← hpk]; rfl⟩
  · intro hmac serP h160 p i c h
    simp only [ckd_priv] at h
    split at h
    · exact absurd h (by simp)
    · rename_i pk cc heq
      split at h
      · exact absurd h (by simp)
      · rename_i sk hsk
        obtain rfl := Option.some.inj h
        refine ⟨rfl, ?_, ?_⟩
        all_goals
          simp only [derive_private_key_and_chain_code] at heq
          split at heq
          · exact absurd heq (by simp)
          · rename_i sk0 hsk0
            obtain ⟨hpk, hcc2⟩ := Prod.mk.inj (Option.some.inj heq)
            rw [← hpk]
            rfl
  · intro chk data k h
    simp only [from_data] at h
    split at h
    · exact absurd h (by simp)
    · split at h
      · exact absurd h (by simp)
      · rename_i network hnw
        split at h
        · exact absurd h (by simp)
        · rename_i sk hsk
          split at h
          · obtain rfl := DecodeResult.ok.inj h
            exact ⟨rfl, rfl⟩
          · exact absurd h (by simp)

/-- C9 witness: the three clauses evaluated at concrete inputs, including a
testnet parent whose derived child keeps network Testnet but carries a
Mainnet-tagged, compressed inner private key. -/
theorem c9_inner_key_network_witness :
    (keyD.private_key.network = Network.Mainnet ∧
      keyD.private_key.compressed = true)
    ∧ (childT.network = parentT.network ∧
      childT.private_key.network = Network.Mainnet ∧
      childT.private_key.compressed = true)
    ∧ (keyD.private_key.network = keyD.network ∧
      keyD.private_key.compressed = true) :=
  ⟨c9_inner_key_network.1 hmacD [] keyD (by decide),
   c9_inner_key_network.2.1 hmacD serPD h160D parentT 0 childT (by decide),
   c9_inner_key_network.2.2 chkD dataC5good keyD (by decide)⟩

/-- C10: `EthereumDerivationPath::from_str` never reaches the
`unwrap` panic (splitting always yields at least one piece), returns the
invalid-derivation-path error whenever the first piece is not exactly "m",
and parsing "m" alone succeeds with the empty path. -/
theorem c10_eth_from_str_total {α : Type}
    (pc : String → Except DerivationPathError α) :
    (∀ s, eth_from_str pc s ≠ EthParseOutcome.panicked)
    ∧ (∀ (s : String) (first : List Char) (rest : List (List Char)),
        splitSlash s.data = first :: rest → String.mk first ≠ "m" →
        eth_from_str pc s =
          EthParseOutcome.err (DerivationPathError.InvalidDerivationPath s))
    ∧ eth_from_str pc "m" = EthParseOutcome.ok [] := by
  refine ⟨?_, ?_, ?_⟩
  · intro s
    cases h : splitSlash s.data with
    | nil => exact absurd h (splitSlash_ne_nil _)
    | cons f r =>
      simp only [eth_from_str, h]
      split
      · simp
      · split <;> simp
  · intro s first rest h hm
    simp only [eth_from_str, h]
    rw [if_pos hm]
  · rfl

/-- C10 witness: the three clauses at concrete inputs, with a concrete
child-index parser stand-in. -/
theorem c10_eth_from_str_total_witness :
    eth_from_str pcD "x" ≠ EthParseOutcome.panicked
    ∧ eth_from_str pcD "x//y" =
        EthParseOutcome.err (DerivationPathError.InvalidDerivationPath "x//y")
    ∧ eth_from_str pcD "m" = EthParseOutcome.ok [] :=
  ⟨(c10_eth_from_str_total pcD).1 "x",
   (c10_eth_from_str_total pcD).2.1 "x//y" ['x'] [[], ['y']] (by decide)
     (by decide),
   (c10_eth_from_str_total pcD).2.2⟩

end Wagyu
